import Mathlib

/-!
Verification of the core of wtsi-hgi/gst: the TTL read-through cache
(`Cache`, `NewCache`, `GetSamples` in server/cache.go), the pure
filter/aggregate functions (`GetUniqueFacultySponsors`,
`GetStudiesForSponsor`, `FilterSamples` in server/cache.go,
`prepareChartData` in server/server.go) and server construction
(`New` in server/server.go), shallowly embedded in Lean.

Modelling conventions:
- `time.Time` instants and `time.Duration` values are `Nat` nanoseconds on
  the monotonic clock (all TTLs appearing in the program are non-negative).
- A `*T` pointer field that may be nil is `Option`.
- Go `error` values are opaque; they are modelled as `String`.
- `db.QueryProvider.Execute() (*db.TrackedSampleCollection, error)` is
  modelled as a function from the invocation count to
  `Except String TrackedSampleCollection`, so distinct invocations may
  return different results (matching the counting mock provider used by
  the repository's own tests).
-/

namespace GST

/-- db.TrackedSample (db/model.go): one sample-tracking row. -/
structure TrackedSample where
  StudyID : String
  StudyName : String
  FacultySponsor : String
  Programme : String
  SangerSampleID : String
  SupplierName : String
  ManifestCreated : Option Nat
  ManifestUploaded : Option Nat
  LabwareReceived : Option Nat
  LabwareHumanBarcode : String
  OrderMade : Option Nat
  LibraryStart : Option Nat
  LibraryComplete : Option Nat
  LibraryTime : Option Int
  RunID : String
  Platform : String
  Pipeline : String
  SequencingRunStart : Option Nat
  SequencingQCComplete : Option Nat
  SequencingTime : Option Int
  QCPass : String
deriving DecidableEq

/-- db.TrackedSampleCollection (db/model.go): the Collection produced by one
provider fetch. -/
structure TrackedSampleCollection where
  Samples : List TrackedSample
deriving DecidableEq

/-- A TrackedSample with every field zero-valued, used to build concrete
test records concisely. -/
def blankSample : TrackedSample :=
  { StudyID := "", StudyName := "", FacultySponsor := "", Programme := ""
    SangerSampleID := "", SupplierName := ""
    ManifestCreated := none, ManifestUploaded := none, LabwareReceived := none
    LabwareHumanBarcode := "", OrderMade := none
    LibraryStart := none, LibraryComplete := none, LibraryTime := none
    RunID := "", Platform := "", Pipeline := ""
    SequencingRunStart := none, SequencingQCComplete := none
    SequencingTime := none, QCPass := "" }

/-- server.Cache (server/cache.go): provider, ttl, held samples (nil
initially), last-fetch time.  The `sync.RWMutex` has no data content; the
concurrency analysis below models the critical sections it serialises. -/
structure Cache where
  provider : Nat → Except String TrackedSampleCollection
  ttl : Nat
  samples : Option TrackedSampleCollection := none
  lastFetched : Nat := 0

/-- server.NewCache (server/cache.go): a cache holding no samples yet. -/
def NewCache (provider : Nat → Except String TrackedSampleCollection) (ttl : Nat) : Cache :=
  { provider := provider, ttl := ttl }

/-- The freshness test `c.samples != nil && time.Since(c.lastFetched) < c.ttl`
performed (twice, around lock acquisition) by GetSamples. -/
def Cache.isFresh (c : Cache) (now : Nat) : Bool :=
  match c.samples with
  | some _ => decide (now - c.lastFetched < c.ttl)
  | none => false

/-- server.Cache.GetSamples (server/cache.go), one sequential call: if the
freshness test passes, return the held collection without touching the
provider; otherwise invoke `c.provider` (at invocation count `k`) and on
success store the result and stamp `lastFetched := now`, on failure leave
the state untouched and return the error.  Returns the updated cache, the
call's result, and whether the provider was invoked.  (In a single
sequential step the second, post-lock freshness check of the source
coincides with the first; the two checks are modelled separately by
`runWaiters` below for the concurrent analysis.) -/
def Cache.GetSamples (c : Cache) (k now : Nat) :
    Cache × Except String TrackedSampleCollection × Bool :=
  match c.samples with
  | some cached =>
    if now - c.lastFetched < c.ttl then
      (c, Except.ok cached, false)
    else
      match c.provider k with
      | Except.error e => (c, Except.error e, true)
      | Except.ok s =>
        ({ c with samples := some s, lastFetched := now }, Except.ok s, true)
  | none =>
    match c.provider k with
    | Except.error e => (c, Except.error e, true)
    | Except.ok s =>
      ({ c with samples := some s, lastFetched := now }, Except.ok s, true)

theorem GetSamples_of_fresh (c : Cache) (cached : TrackedSampleCollection) (k now : Nat)
    (hs : c.samples = some cached) (hf : now - c.lastFetched < c.ttl) :
    c.GetSamples k now = (c, Except.ok cached, false) := by
  unfold Cache.GetSamples
  rw [hs]
  simp [hf]

theorem GetSamples_of_miss (c : Cache) (k now : Nat) (h : c.isFresh now = false) :
    c.GetSamples k now =
      match c.provider k with
      | Except.error e => (c, Except.error e, true)
      | Except.ok s =>
        ({ c with samples := some s, lastFetched := now }, Except.ok s, true) := by
  unfold Cache.GetSamples
  unfold Cache.isFresh at h
  cases hs : c.samples with
  | none => rfl
  | some cached =>
    rw [hs] at h
    simp only [decide_eq_false_iff_not] at h
    simp [h]

theorem isFresh_some (p : Nat → Except String TrackedSampleCollection)
    (T f now : Nat) (coll : TrackedSampleCollection) :
    Cache.isFresh ⟨p, T, some coll, f⟩ now = decide (now - f < T) := rfl

theorem isFresh_none (p : Nat → Except String TrackedSampleCollection) (T f now : Nat) :
    Cache.isFresh ⟨p, T, none, f⟩ now = false := rfl

theorem GetSamples_preserves_ttl (c : Cache) (k t : Nat) :
    (c.GetSamples k t).1.ttl = c.ttl := by
  unfold Cache.GetSamples
  cases hs : c.samples with
  | none => cases hp : c.provider k <;> rfl
  | some cached =>
    by_cases hf : t - c.lastFetched < c.ttl
    · simp [hf]
    · simp only [hf, if_false]
      cases hp : c.provider k <;> rfl

theorem GetSamples_invoked_iff (c : Cache) (k now : Nat) :
    (c.GetSamples k now).2.2 = !(c.isFresh now) := by
  unfold Cache.GetSamples Cache.isFresh
  cases hs : c.samples with
  | none =>
    cases c.provider k <;> rfl
  | some cached =>
    by_cases hf : now - c.lastFetched < c.ttl
    · simp [hf]
    · simp only [hf, if_false]
      cases c.provider k <;> simp [hf]

/-- The concurrent slow path of GetSamples, sequentialised by the lock.
When several callers all miss the RLock fast path, `c.mu.Lock()` admits
them one at a time; each then runs the critical section of
server/cache.go (re-check freshness, and if still stale invoke the
provider and on success store the result).  Since that critical section
performs exactly the check-then-fetch logic of `Cache.GetSamples`, a whole
refresh cycle is the fold of `Cache.GetSamples` over the waiters in
lock-acquisition order, each waiter re-checking at its own admission time.
`runWaiters (c, k) ts` runs one waiter per element of `ts` (the admission
times, in lock order), threading the cache state and the provider
invocation count `k`, and collects each waiter's returned result. -/
def runWaiters : Cache × Nat → List Nat → (Cache × Nat) × List (Except String TrackedSampleCollection)
  | st, [] => (st, [])
  | (c, k), t :: ts =>
    match c.GetSamples k t with
    | (c2, r, invoked) =>
      let rest := runWaiters (c2, if invoked then k + 1 else k) ts
      (rest.1, r :: rest.2)

/-- Accumulator for the Go map `map[string]struct{}` key sets: insert a key
if absent.  Keys are kept in first-insertion order; every function below
sorts before returning, so the result does not depend on this order (Go map
iteration order is unspecified, `sort.Strings` makes the output
deterministic). -/
def insertKey (l : List String) (s : String) : List String :=
  if s ∈ l then l else l ++ [s]

/-- Loop body of server.GetUniqueFacultySponsors: record each non-empty
FacultySponsor value. -/
def sponsorStep (acc : List String) (sample : TrackedSample) : List String :=
  if sample.FacultySponsor ≠ "" then insertKey acc sample.FacultySponsor else acc

/-- Ascending string order used by sort.Strings, modelled on the character
lists; it coincides with the order of String's LinearOrder
(String.le_iff_toList_le). -/
def strLe (a b : String) : Prop := a.data ≤ b.data

instance : DecidableRel strLe := fun a b => inferInstanceAs (Decidable (a.data ≤ b.data))

instance : IsTotal String strLe := ⟨fun a b => le_total a.data b.data⟩

instance : IsTrans String strLe := ⟨fun a b c h1 h2 => le_trans h1 h2⟩

/-- server.GetUniqueFacultySponsors (server/cache.go): the non-empty
FacultySponsor values, de-duplicated and sorted with sort.Strings. -/
def GetUniqueFacultySponsors (samples : List TrackedSample) : List String :=
  List.insertionSort strLe (samples.foldl sponsorStep [])

/-- Loop body of server.GetStudiesForSponsor: record each non-empty
StudyName of a sample whose FacultySponsor equals `sponsor`. -/
def studyStep (sponsor : String) (acc : List String) (sample : TrackedSample) : List String :=
  if sample.FacultySponsor = sponsor ∧ sample.StudyName ≠ "" then
    insertKey acc sample.StudyName
  else acc

/-- server.GetStudiesForSponsor (server/cache.go): the non-empty StudyName
values of samples with the given FacultySponsor, de-duplicated and sorted
with sort.Strings. -/
def GetStudiesForSponsor (samples : List TrackedSample) (sponsor : String) : List String :=
  List.insertionSort strLe (samples.foldl (studyStep sponsor) [])

/-- Loop body of server.FilterSamples: skip a sample whose FacultySponsor
differs from `sponsor`; skip it when `study` is non-empty and its StudyName
differs from `study`; otherwise append it. -/
def filterStep (sponsor study : String) (filtered : List TrackedSample)
    (sample : TrackedSample) : List TrackedSample :=
  if sample.FacultySponsor ≠ sponsor then filtered
  else if study ≠ "" ∧ sample.StudyName ≠ study then filtered
  else filtered ++ [sample]

/-- server.FilterSamples (server/cache.go): with an empty sponsor return
the input as-is; otherwise keep the matching samples in input order. -/
def FilterSamples (samples : List TrackedSample) (sponsor study : String) : List TrackedSample :=
  if sponsor = "" then samples
  else samples.foldl (filterStep sponsor study) []

/-- server.ChartData (server/server.go): the four parallel series for the
Chart.js visualisation. -/
structure ChartData where
  Labels : List String
  SampleIds : List String
  LibraryTime : List Int
  SequencingTime : List Int
deriving DecidableEq

/-- Loop body of server.prepareChartData: append the sample's
SangerSampleID to both Labels and SampleIds, and the two durations (0 when
nil) to LibraryTime and SequencingTime. -/
def chartStep (chartData : ChartData) (sample : TrackedSample) : ChartData :=
  let libTime : Int := match sample.LibraryTime with | some v => v | none => 0
  let seqTime : Int := match sample.SequencingTime with | some v => v | none => 0
  { Labels := chartData.Labels ++ [sample.SangerSampleID]
    SampleIds := chartData.SampleIds ++ [sample.SangerSampleID]
    LibraryTime := chartData.LibraryTime ++ [libTime]
    SequencingTime := chartData.SequencingTime ++ [seqTime] }

/-- server.prepareChartData (server/server.go). -/
def prepareChartData (samples : List TrackedSample) : ChartData :=
  samples.foldl chartStep
    { Labels := [], SampleIds := [], LibraryTime := [], SequencingTime := [] }

/-- server.Config (server/server.go): provider, port, cache TTL. -/
structure Config where
  QueryProvider : Nat → Except String TrackedSampleCollection
  Port : Nat
  CacheTTL : Nat

/-- time.Minute in nanoseconds (time.Duration's unit). -/
def minute : Nat := 60 * 1000000000

/-- server.Server (server/server.go), restricted to the core state the
claims are about (templates and the HTTP mux are I/O glue). -/
structure Server where
  config : Config
  cache : Cache

/-- server.New (server/server.go): default Port 0 to 8080 and CacheTTL 0 to
5 minutes, then build the cache from the defaulted config.  (Template
parsing, which can only fail on malformed embedded assets, is omitted.) -/
def New (config : Config) : Server :=
  let config1 : Config := if config.Port = 0 then { config with Port := 8080 } else config
  let config2 : Config :=
    if config1.CacheTTL = 0 then { config1 with CacheTTL := 5 * minute } else config1
  { config := config2, cache := NewCache config2.QueryProvider config2.CacheTTL }

theorem runWaiters_fresh (c : Cache) (coll : TrackedSampleCollection) (k : Nat) (ts : List Nat)
    (hc : c.samples = some coll)
    (hts : ∀ t ∈ ts, t - c.lastFetched < c.ttl) :
    runWaiters (c, k) ts = ((c, k), List.replicate ts.length (Except.ok coll)) := by
  induction ts with
  | nil => rfl
  | cons t rest ih =>
    rw [runWaiters, GetSamples_of_fresh c coll k t hc (hts t (by simp))]
    simp only [Bool.false_eq_true, if_false]
    rw [ih (fun x hx => hts x (List.mem_cons_of_mem t hx))]
    rfl

/-- C1 (amended): when N concurrent GetSamples calls all require a refresh,
their critical sections run one at a time in lock-acquisition order.  If
the first caller's provider invocation succeeds, storing `coll` with
timestamp t1, and every later caller re-checks while that result is still
within TTL, then the provider is invoked exactly once for the whole cycle
and every caller returns the same Collection `coll`. -/
theorem single_flight_refresh (c : Cache) (t1 : Nat) (ts : List Nat)
    (coll : TrackedSampleCollection)
    (hp : c.provider 0 = Except.ok coll)
    (hmiss : c.isFresh t1 = false)
    (hts : ∀ t ∈ ts, t - t1 < c.ttl) :
    (runWaiters (c, 0) (t1 :: ts)).1.2 = 1 ∧
    (runWaiters (c, 0) (t1 :: ts)).2 =
      List.replicate (ts.length + 1) (Except.ok coll) := by
  have hstep := GetSamples_of_miss c 0 t1 hmiss
  rw [hp] at hstep
  have hrest :=
    runWaiters_fresh { c with samples := some coll, lastFetched := t1 } coll 1 ts rfl hts
  rw [runWaiters, hstep]
  simp only [if_true, Nat.zero_add]
  rw [hrest]
  exact ⟨rfl, rfl⟩

/-- Witness for single_flight_refresh: an empty cache with TTL 100, a
succeeding provider, a first waiter at time 7 and two more waiters at
times 8 and 9: one provider invocation, all three callers get the same
Collection. -/
theorem single_flight_refresh_witness :
    ((NewCache (fun _ => Except.ok (⟨[]⟩ : TrackedSampleCollection)) 100).provider 0 =
      Except.ok (⟨[]⟩ : TrackedSampleCollection)) ∧
    ((NewCache (fun _ => Except.ok (⟨[]⟩ : TrackedSampleCollection)) 100).isFresh 7 = false) ∧
    (∀ t ∈ [8, 9],
      t - 7 < (NewCache (fun _ => Except.ok (⟨[]⟩ : TrackedSampleCollection)) 100).ttl) ∧
    ((runWaiters (NewCache (fun _ => Except.ok (⟨[]⟩ : TrackedSampleCollection)) 100, 0)
        (7 :: [8, 9])).1.2 = 1 ∧
      (runWaiters (NewCache (fun _ => Except.ok (⟨[]⟩ : TrackedSampleCollection)) 100, 0)
        (7 :: [8, 9])).2 =
        List.replicate ([8, 9].length + 1) (Except.ok (⟨[]⟩ : TrackedSampleCollection))) :=
  ⟨rfl, rfl, by decide,
    single_flight_refresh (NewCache (fun _ => Except.ok (⟨[]⟩ : TrackedSampleCollection)) 100)
      7 [8, 9] ⟨[]⟩ rfl rfl (by decide)⟩

/-- C1 counterexample: two concurrent callers both find the cache empty
(both require a refresh) and the provider fails.  The first waiter's
invocation fails and stores nothing, so the second waiter's re-check still
finds the cache empty and it invokes the provider again: the provider is
invoked twice in the one refresh cycle, not exactly once as the claim
states (cache TTL 100, both waiters admitted at time 5). -/
theorem single_flight_failure_counterexample :
    ¬((runWaiters (NewCache (fun _ => Except.error "db down") 100, 0) [5, 5]).1.2 = 1) ∧
    (runWaiters (NewCache (fun _ => Except.error "db down") 100, 0) [5, 5]).1.2 = 2 ∧
    (runWaiters (NewCache (fun _ => Except.error "db down") 100, 0) [5, 5]).2 =
      [Except.error "db down", Except.error "db down"] := by
  refine ⟨?_, rfl, rfl⟩
  intro h
  have h2 : (2 : Nat) = 1 := h
  exact absurd h2 (by omega)

/-- C2: for a Cache with TTL T whose last successful fetch stored `coll` at
time t0, every GetSamples call at a time t with t0 ≤ t < t0+T returns that
stored Collection, leaves the state unchanged and does not invoke the
provider, while a call at any time t2 ≥ t0+T does invoke the provider
(exactly one invocation: GetSamples calls Execute at most once per call by
construction). -/
theorem cache_freshness_window (p : Nat → Except String TrackedSampleCollection)
    (coll : TrackedSampleCollection) (T t0 t t2 k k2 : Nat)
    (h1 : t0 ≤ t) (h2 : t < t0 + T) (h3 : t0 + T ≤ t2) :
    Cache.GetSamples ⟨p, T, some coll, t0⟩ k t = (⟨p, T, some coll, t0⟩, Except.ok coll, false) ∧
    (Cache.GetSamples ⟨p, T, some coll, t0⟩ k2 t2).2.2 = true := by
  constructor
  · exact GetSamples_of_fresh _ _ _ _ rfl (show t - t0 < T by omega)
  · rw [GetSamples_invoked_iff, isFresh_some]
    simp only [Bool.not_eq_true', decide_eq_false_iff_not]
    omega

/-- Witness for cache_freshness_window: TTL 100, stored at t0 = 50, read at
t = 149 (cached, no fetch), read at t2 = 150 (fetches). -/
theorem cache_freshness_window_witness :
    50 ≤ 149 ∧ 149 < 50 + 100 ∧ 50 + 100 ≤ 150 ∧
    (Cache.GetSamples ⟨fun _ => Except.error "down", 100, some ⟨[]⟩, 50⟩ 1 149 =
      (⟨fun _ => Except.error "down", 100, some ⟨[]⟩, 50⟩, Except.ok ⟨[]⟩, false) ∧
    (Cache.GetSamples ⟨fun _ => Except.error "down", 100, some ⟨[]⟩, 50⟩ 1 150).2.2 = true) :=
  ⟨by omega, by omega, by omega,
    cache_freshness_window (fun _ => Except.error "down") ⟨[]⟩ 100 50 149 150 1 1
      (by omega) (by omega) (by omega)⟩

/-- C3: when a refresh is required (the freshness test fails) and the
provider invocation fails, GetSamples returns that error and leaves the
cache state — held Collection and last-fetch timestamp — exactly as it
was; a subsequent call on the resulting state at a time where the
freshness test still fails invokes the provider again (the failure is not
cached). -/
theorem cache_error_no_update (c : Cache) (e : String) (k k2 t t2 : Nat)
    (hp : c.provider k = Except.error e)
    (hmiss : c.isFresh t = false) (hmiss2 : c.isFresh t2 = false) :
    c.GetSamples k t = (c, Except.error e, true) ∧
    (((c.GetSamples k t).1).GetSamples k2 t2).2.2 = true := by
  have h := GetSamples_of_miss c k t hmiss
  rw [hp] at h
  refine ⟨h, ?_⟩
  rw [h, GetSamples_invoked_iff, hmiss2]
  rfl

/-- Witness for cache_error_no_update: stale data stored at t0 = 0 with
TTL 50, failing provider, calls at t = 60 and t2 = 70. -/
theorem cache_error_no_update_witness :
    (Cache.isFresh ⟨fun _ => Except.error "boom", 50, some ⟨[]⟩, 0⟩ 60 = false) ∧
    (Cache.isFresh ⟨fun _ => Except.error "boom", 50, some ⟨[]⟩, 0⟩ 70 = false) ∧
    (Cache.GetSamples ⟨fun _ => Except.error "boom", 50, some ⟨[]⟩, 0⟩ 0 60 =
      (⟨fun _ => Except.error "boom", 50, some ⟨[]⟩, 0⟩, Except.error "boom", true) ∧
    (((Cache.GetSamples ⟨fun _ => Except.error "boom", 50, some ⟨[]⟩, 0⟩ 0 60).1).GetSamples
        1 70).2.2 = true) :=
  ⟨rfl, rfl,
    cache_error_no_update ⟨fun _ => Except.error "boom", 50, some ⟨[]⟩, 0⟩ "boom" 0 1 60 70
      rfl rfl rfl⟩

/-- C5: a Cache whose TTL is zero never serves the held Collection: every
GetSamples call invokes the provider, and the TTL of the resulting state is
still zero (so this holds of every state a Cache built by NewCache with
TTL 0 can ever reach). -/
theorem cache_zero_ttl_always_fetches (p : Nat → Except String TrackedSampleCollection)
    (s : Option TrackedSampleCollection) (f k t : Nat) :
    (Cache.GetSamples ⟨p, 0, s, f⟩ k t).2.2 = true ∧
    (Cache.GetSamples ⟨p, 0, s, f⟩ k t).1.ttl = 0 := by
  constructor
  · rw [GetSamples_invoked_iff]
    cases s with
    | none => rw [isFresh_none]; rfl
    | some coll => rw [isFresh_some]; simp
  · rw [GetSamples_preserves_ttl]

/-- C6: GetSamples returns an error exactly when it invoked the provider
and that invocation failed, and the error returned is the provider's own
error value, unchanged; the Cache originates no error of its own. -/
theorem cache_error_provenance (c : Cache) (k t : Nat) (e : String) :
    (c.GetSamples k t).2.1 = Except.error e ↔
      (c.provider k = Except.error e ∧ (c.GetSamples k t).2.2 = true) := by
  unfold Cache.GetSamples
  cases hs : c.samples with
  | none => cases hp : c.provider k <;> simp
  | some cached =>
    by_cases hf : t - c.lastFetched < c.ttl
    · simp [hf]
    · simp only [hf, if_false]
      cases hp : c.provider k <;> simp

theorem mem_insertKey (l : List String) (s x : String) :
    x ∈ insertKey l s ↔ x ∈ l ∨ x = s := by
  unfold insertKey
  by_cases h : s ∈ l
  · simp only [h, if_true]
    constructor
    · exact Or.inl
    · rintro (hx | rfl)
      · exact hx
      · exact h
  · simp [h]

theorem nodup_insertKey (l : List String) (s : String) (h : l.Nodup) :
    (insertKey l s).Nodup := by
  unfold insertKey
  by_cases hs : s ∈ l
  · simpa [hs]
  · simp [hs, List.nodup_append, h]

theorem mem_sponsorFold (x : String) (samples : List TrackedSample) (init : List String) :
    x ∈ samples.foldl sponsorStep init ↔
      x ∈ init ∨ ∃ r ∈ samples, r.FacultySponsor ≠ "" ∧ r.FacultySponsor = x := by
  induction samples generalizing init with
  | nil => simp
  | cons s rest ih =>
    simp only [List.foldl_cons]
    rw [ih]
    unfold sponsorStep
    by_cases h : s.FacultySponsor = ""
    · simp only [h, ne_eq, not_true_eq_false, if_false, List.mem_cons]
      aesop
    · simp only [h, ne_eq, not_false_eq_true, if_true, mem_insertKey, List.mem_cons]
      aesop

theorem nodup_sponsorFold (samples : List TrackedSample) (init : List String)
    (h : init.Nodup) : (samples.foldl sponsorStep init).Nodup := by
  induction samples generalizing init with
  | nil => exact h
  | cons s rest ih =>
    simp only [List.foldl_cons]
    apply ih
    unfold sponsorStep
    split
    · exact nodup_insertKey _ _ h
    · exact h

theorem mem_studyFold (sponsor x : String) (samples : List TrackedSample)
    (init : List String) :
    x ∈ samples.foldl (studyStep sponsor) init ↔
      x ∈ init ∨
        ∃ r ∈ samples, r.FacultySponsor = sponsor ∧ r.StudyName ≠ "" ∧ r.StudyName = x := by
  induction samples generalizing init with
  | nil => simp
  | cons s rest ih =>
    simp only [List.foldl_cons]
    rw [ih]
    unfold studyStep
    by_cases h : s.FacultySponsor = sponsor ∧ s.StudyName ≠ ""
    · rw [if_pos h, mem_insertKey]
      constructor
      · rintro ((hx | rfl) | ⟨r, hr, hp⟩)
        · exact Or.inl hx
        · exact Or.inr ⟨s, List.mem_cons_self s rest, h.1, h.2, rfl⟩
        · exact Or.inr ⟨r, List.mem_cons_of_mem s hr, hp⟩
      · rintro (hx | ⟨r, hr, hp⟩)
        · exact Or.inl (Or.inl hx)
        · rcases List.mem_cons.mp hr with rfl | hr2
          · exact Or.inl (Or.inr hp.2.2.symm)
          · exact Or.inr ⟨r, hr2, hp⟩
    · rw [if_neg h]
      constructor
      · rintro (hx | ⟨r, hr, hp⟩)
        · exact Or.inl hx
        · exact Or.inr ⟨r, List.mem_cons_of_mem s hr, hp⟩
      · rintro (hx | ⟨r, hr, hp⟩)
        · exact Or.inl hx
        · rcases List.mem_cons.mp hr with rfl | hr2
          · exact absurd ⟨hp.1, hp.2.1⟩ h
          · exact Or.inr ⟨r, hr2, hp⟩

theorem nodup_studyFold (sponsor : String) (samples : List TrackedSample)
    (init : List String) (h : init.Nodup) :
    (samples.foldl (studyStep sponsor) init).Nodup := by
  induction samples generalizing init with
  | nil => exact h
  | cons s rest ih =>
    simp only [List.foldl_cons]
    apply ih
    unfold studyStep
    split
    · exact nodup_insertKey _ _ h
    · exact h

theorem sorted_strLe_le {l : List String} (h : l.Sorted strLe) :
    l.Sorted (fun a b => a ≤ b) :=
  h.imp fun hab => String.le_iff_toList_le.mpr hab

/-- C7: GetUniqueFacultySponsors is sorted ascending, has no duplicates,
and contains exactly the non-empty FacultySponsor values occurring in the
input; on records with sponsors A, C, A, B, empty, A it returns
[A, B, C]. -/
theorem uniqueSponsors_spec (samples : List TrackedSample) :
    (GetUniqueFacultySponsors samples).Sorted (fun a b => a ≤ b) ∧
    (GetUniqueFacultySponsors samples).Nodup ∧
    (∀ x, x ∈ GetUniqueFacultySponsors samples ↔
      x ≠ "" ∧ x ∈ samples.map TrackedSample.FacultySponsor) ∧
    GetUniqueFacultySponsors
      (["A", "C", "A", "B", "", "A"].map
        fun sp => { blankSample with FacultySponsor := sp }) = ["A", "B", "C"] := by
  refine ⟨sorted_strLe_le (List.sorted_insertionSort _ _), ?_, ?_, ?_⟩
  · exact (List.perm_insertionSort _ _).nodup_iff.mpr
      (nodup_sponsorFold samples [] List.nodup_nil)
  · intro x
    unfold GetUniqueFacultySponsors
    rw [List.mem_insertionSort, mem_sponsorFold]
    simp only [List.not_mem_nil, false_or, List.mem_map]
    aesop
  · decide

/-- C9: GetStudiesForSponsor is sorted ascending, has no duplicates, and
contains exactly the non-empty StudyName values of records whose
FacultySponsor equals the given sponsor (exact, case-sensitive equality);
on the three-record P4 example with sponsor A it returns [S1, S2]. -/
theorem studiesForSponsor_spec (samples : List TrackedSample) (sponsor : String) :
    (GetStudiesForSponsor samples sponsor).Sorted (fun a b => a ≤ b) ∧
    (GetStudiesForSponsor samples sponsor).Nodup ∧
    (∀ x, x ∈ GetStudiesForSponsor samples sponsor ↔
      x ≠ "" ∧ ∃ r ∈ samples, r.FacultySponsor = sponsor ∧ r.StudyName = x) ∧
    GetStudiesForSponsor
      [{ blankSample with FacultySponsor := "A", StudyName := "S1" },
       { blankSample with FacultySponsor := "A", StudyName := "S2" },
       { blankSample with FacultySponsor := "B", StudyName := "S3" }] "A" = ["S1", "S2"] := by
  refine ⟨sorted_strLe_le (List.sorted_insertionSort _ _), ?_, ?_, ?_⟩
  · exact (List.perm_insertionSort _ _).nodup_iff.mpr
      (nodup_studyFold sponsor samples [] List.nodup_nil)
  · intro x
    unfold GetStudiesForSponsor
    rw [List.mem_insertionSort, mem_studyFold]
    simp only [List.not_mem_nil, false_or]
    aesop
  · decide

theorem filterFold_eq (sponsor study : String) (samples init : List TrackedSample) :
    samples.foldl (filterStep sponsor study) init =
      init ++ samples.filter
        (fun r => decide (r.FacultySponsor = sponsor ∧ (study ≠ "" → r.StudyName = study))) := by
  induction samples generalizing init with
  | nil => simp
  | cons s rest ih =>
    simp only [List.foldl_cons, List.filter_cons]
    by_cases h1 : s.FacultySponsor = sponsor
    · by_cases h2 : study ≠ "" ∧ s.StudyName ≠ study
      · have hstep : filterStep sponsor study init s = init := by
          unfold filterStep
          rw [if_neg (fun hc => hc h1), if_pos h2]
        have hpred : decide (s.FacultySponsor = sponsor ∧ (study ≠ "" → s.StudyName = study))
            = false := by
          simp only [decide_eq_false_iff_not]
          intro hc
          exact h2.2 (hc.2 h2.1)
        rw [hstep, ih, hpred]
        simp
      · have hstep : filterStep sponsor study init s = init ++ [s] := by
          unfold filterStep
          rw [if_neg (fun hc => hc h1), if_neg h2]
        have hpred : decide (s.FacultySponsor = sponsor ∧ (study ≠ "" → s.StudyName = study))
            = true := by
          simp only [decide_eq_true_eq]
          refine ⟨h1, fun hst => ?_⟩
          by_contra hne
          exact h2 ⟨hst, hne⟩
        rw [hstep, ih, hpred]
        simp
    · have hstep : filterStep sponsor study init s = init := by
        unfold filterStep
        rw [if_pos h1]
      have hpred : decide (s.FacultySponsor = sponsor ∧ (study ≠ "" → s.StudyName = study))
          = false := by
        simp only [decide_eq_false_iff_not]
        intro hc
        exact h1 hc.1
      rw [hstep, ih, hpred]
      simp

/-- C4: FilterSamples with an empty sponsor is the identity on the input
(study is ignored); with a non-empty sponsor it keeps exactly the records
whose FacultySponsor equals sponsor and, when study is non-empty, whose
StudyName equals study, in input order; in both cases the output is a
sublist of the input (relative order of survivors preserved, nothing
reordered or duplicated). -/
theorem filterRecords_spec (samples : List TrackedSample) (sponsor study : String) :
    FilterSamples samples sponsor study =
      (if sponsor = "" then samples
       else samples.filter
         (fun r => decide (r.FacultySponsor = sponsor ∧ (study ≠ "" → r.StudyName = study)))) ∧
    (FilterSamples samples sponsor study).Sublist samples := by
  have key : FilterSamples samples sponsor study =
      (if sponsor = "" then samples
       else samples.filter
         (fun r => decide (r.FacultySponsor = sponsor ∧ (study ≠ "" → r.StudyName = study)))) := by
    unfold FilterSamples
    by_cases h : sponsor = ""
    · simp [h]
    · simp only [h, if_false]
      rw [filterFold_eq]
      simp
  refine ⟨key, ?_⟩
  rw [key]
  by_cases h : sponsor = ""
  · simp [h]
  · simp only [h, if_false]
    exact List.filter_sublist _

theorem chartFold_eq (samples : List TrackedSample) (init : ChartData) :
    samples.foldl chartStep init =
      { Labels := init.Labels ++ samples.map (fun s => s.SangerSampleID)
        SampleIds := init.SampleIds ++ samples.map (fun s => s.SangerSampleID)
        LibraryTime := init.LibraryTime ++ samples.map (fun s =>
          match s.LibraryTime with | some v => v | none => 0)
        SequencingTime := init.SequencingTime ++ samples.map (fun s =>
          match s.SequencingTime with | some v => v | none => 0) } := by
  induction samples generalizing init with
  | nil => simp
  | cons s rest ih =>
    simp only [List.foldl_cons, List.map_cons]
    rw [ih]
    unfold chartStep
    simp

/-- C8: prepareChartData produces four parallel sequences, each as long as
the input and in input order; Labels and SampleIds are both the
SangerSampleID of each record (hence element-wise equal), and the two
duration sequences render an absent duration as 0. -/
theorem chartSeries_spec (samples : List TrackedSample) :
    (prepareChartData samples).Labels.length = samples.length ∧
    (prepareChartData samples).SampleIds.length = samples.length ∧
    (prepareChartData samples).LibraryTime.length = samples.length ∧
    (prepareChartData samples).SequencingTime.length = samples.length ∧
    (prepareChartData samples).Labels = samples.map (fun s => s.SangerSampleID) ∧
    (prepareChartData samples).SampleIds = (prepareChartData samples).Labels ∧
    (prepareChartData samples).LibraryTime =
      samples.map (fun s => match s.LibraryTime with | some v => v | none => 0) ∧
    (prepareChartData samples).SequencingTime =
      samples.map (fun s => match s.SequencingTime with | some v => v | none => 0) := by
  unfold prepareChartData
  rw [chartFold_eq]
  simp

/-- A Config whose Port and CacheTTL are both zero-valued. -/
def zeroConfig : Config :=
  { QueryProvider := (fun _ => Except.error "unused"), Port := 0, CacheTTL := 0 }

/-- C10: New replaces zero-valued configuration with defaults before
building the cache: Port 0 becomes 8080 and CacheTTL 0 becomes 5 minutes,
and the constructed cache carries that 5-minute TTL — so at the Server
level a zero TTL yields a 5-minute caching window (any call within
5 minutes of a successful fetch is served from the cache), not
always-refresh behaviour. -/
theorem server_new_defaults :
    (New zeroConfig).config.Port = 8080 ∧
    (New zeroConfig).config.CacheTTL = 5 * minute ∧
    (New zeroConfig).cache.ttl = 5 * minute ∧
    (∀ (coll : TrackedSampleCollection) (t0 t k : Nat), t0 ≤ t → t < t0 + 5 * minute →
      Cache.GetSamples
        { (New zeroConfig).cache with samples := some coll, lastFetched := t0 } k t =
      ({ (New zeroConfig).cache with samples := some coll, lastFetched := t0 },
        Except.ok coll, false)) := by
  refine ⟨rfl, rfl, rfl, ?_⟩
  intro coll t0 t k h1 h2
  exact GetSamples_of_fresh _ _ _ _ rfl (show t - t0 < 5 * minute by omega)

/-- Witness for server_new_defaults: with the defaulted 5-minute TTL, a
call 3 ns after a successful fetch at t0 = 0 is served from the cache. -/
theorem server_new_defaults_witness :
    (0 : Nat) ≤ 3 ∧ (3 : Nat) < 0 + 5 * minute ∧
    Cache.GetSamples
      { (New zeroConfig).cache with
        samples := some (⟨[]⟩ : TrackedSampleCollection), lastFetched := 0 } 0 3 =
    ({ (New zeroConfig).cache with
        samples := some (⟨[]⟩ : TrackedSampleCollection), lastFetched := 0 },
      Except.ok (⟨[]⟩ : TrackedSampleCollection), false) :=
  ⟨by omega, by simp [minute],
    server_new_defaults.2.2.2 ⟨[]⟩ 0 3 0 (by omega) (by simp [minute])⟩

end GST
